import Mathlib

/-!
Verification of the slump capture-to-transport media pipeline
(`slump/native/src`) against its specification.

The development shallow-embeds the Rust sources:
* `audio/mod.rs` — the `AudioCapture` ring-buffer write path (`capture_audio`)
  and drain path (`read_audio`), over the `ringbuf` crate's `HeapRb`;
* `video/mod.rs` — `VideoCapture::capture_frame` / `get_last_frame`;
* `webrtc/mod.rs` — `SignalMessage` JSON encoding, the inbound signaling
  task, and `WebRTCTransport::is_connected`;
* `lib.rs` — the orchestrator entry points `start_stream`, `handle_signal`,
  `get_stats`, and the spawned streaming loop.

Machine floats (`f64` stats fields) are modelled as `ℚ`; the claims settled
here only ever inspect constants (`0.0`) or ignore those fields.  Times
(`Instant`) are modelled as `Nat` milliseconds.
-/

namespace Slump

/-! ### Ring buffer: `ringbuf::HeapRb` as used by `audio/mod.rs`

`HeapRb::new(cap)` allocates a bounded queue.  `Rb::push` appends the item
only when there is free space and otherwise fails, returning the item — the
write is silently discarded by `let _ = rb.push(sample)` in
`AudioCapture::capture_audio`.  `pop` removes the oldest item.  The sample
type `f32` never enters any arithmetic, so the store is polymorphic. -/

structure HeapRb (α : Type) where
  capacity : Nat
  data : List α

def HeapRb.new (α : Type) (cap : Nat) : HeapRb α := ⟨cap, []⟩

def HeapRb.len {α : Type} (rb : HeapRb α) : Nat := rb.data.length

/-- Method `Rb::push`: append when not full, otherwise drop the newest sample. -/
def HeapRb.push {α : Type} (rb : HeapRb α) (x : α) : HeapRb α :=
  if rb.len < rb.capacity then { rb with data := rb.data ++ [x] } else rb

/-- Method `Rb::pop`: remove and return the oldest sample, if any. -/
def HeapRb.pop {α : Type} (rb : HeapRb α) : Option (α × HeapRb α) :=
  match rb.data with
  | [] => none
  | x :: rest => some (x, { rb with data := rest })

/-! ### Audio capture (`audio/mod.rs`) -/

/-- Constant `SAMPLE_RATE: i32 = 48000` (`audio/mod.rs:15`). -/
def SAMPLE_RATE : Int := 48000

/-- Constant `CHANNELS: u16 = 2` (`audio/mod.rs:16`). -/
def CHANNELS : Nat := 2

/-- Constant `FRAME_SIZE: usize = 960` (`audio/mod.rs:17`). -/
def FRAME_SIZE : Nat := 960

/-- The ring-buffer capacity fixed by `AudioCapture::new`
(`audio/mod.rs:94`): `HeapRb::<f32>::new((SAMPLE_RATE * 2) as usize)`. -/
def ringCapacity : Nat := (SAMPLE_RATE * 2).toNat

/-- The write loop of `AudioCapture::capture_audio` (`audio/mod.rs:139-142`):
each resampled sample is pushed one at a time, and a push that fails because
the buffer is full is discarded (`let _ = rb.push(sample)`). -/
def push_samples {α : Type} (rb : HeapRb α) (samples : List α) : HeapRb α :=
  samples.foldl HeapRb.push rb

/-- The drain loop of `AudioCapture::read_audio` (`audio/mod.rs:152-158`):
argument order is loop index `i`, remaining iterations, buffer state, and the
caller's output buffer.  A failed `pop` returns the index reached so far
(the `else return i` branch). -/
def read_audio_go {α : Type} : Nat → Nat → HeapRb α → List α → Nat × List α × HeapRb α
  | i, 0, rb, buf => (i, buf, rb)
  | i, rem + 1, rb, buf =>
    match rb.pop with
    | some (x, rb2) => read_audio_go (i + 1) rem rb2 (buf.set i x)
    | none => (i, buf, rb)

/-- Method `AudioCapture::read_audio` (`audio/mod.rs:148-161`): reads
`count = min(buffer.len(), rb.len())` samples into the caller's buffer and
returns the count together with the updated buffer and ring state. -/
def read_audio {α : Type} (rb : HeapRb α) (buf : List α) : Nat × List α × HeapRb α :=
  read_audio_go 0 (min buf.length rb.len) rb buf

/-- One call site touching the ring buffer: a capture-side write of a single
sample, or a send-side `read_audio` drain into a caller-supplied buffer. -/
inductive RingOp (α : Type)
  | write (x : α)
  | read (buf : List α)

def ringStep {α : Type} (rb : HeapRb α) : RingOp α → HeapRb α
  | RingOp.write x => rb.push x
  | RingOp.read buf => (read_audio rb buf).2.2

def ringRun {α : Type} (rb : HeapRb α) (ops : List (RingOp α)) : HeapRb α :=
  ops.foldl ringStep rb

/-! ### Signaling messages (`webrtc/mod.rs:48-61`) and their JSON form

serde's externally-tagged representation of `enum SignalMessage` is embedded
at the JSON-value level (`serde_json::Value`); the byte-level printer/parser
is the serde_json collaborator.  `u16` indices become `Nat`. -/

structure IceCandidate where
  candidate : String
  sdp_mid : Option String
  sdp_m_line_index : Option Nat
deriving DecidableEq

inductive SignalMessage
  | Offer (sdp : String)
  | Answer (sdp : String)
  | Ice (candidate : IceCandidate)
  | Error (message : String)
deriving DecidableEq

inductive Json
  | null
  | bool (b : Bool)
  | num (n : Nat)
  | str (s : String)
  | arr (elems : List Json)
  | obj (fields : List (String × Json))

/-- First field with the given name, as serde's map deserializer reads it. -/
def Json.getField : List (String × Json) → String → Option Json
  | [], _ => none
  | (k, v) :: rest, name => if k = name then some v else Json.getField rest name

def encodeOptStr : Option String → Json
  | none => Json.null
  | some s => Json.str s

def encodeOptNat : Option Nat → Json
  | none => Json.null
  | some n => Json.num n

def decodeOptStr : Json → Option (Option String)
  | Json.null => some none
  | Json.str s => some (some s)
  | _ => none

def decodeOptNat : Json → Option (Option Nat)
  | Json.null => some none
  | Json.num n => some (some n)
  | _ => none

/-- serde serialization of `struct IceCandidate` (`webrtc/mod.rs:48-53`). -/
def encodeIceCandidate (c : IceCandidate) : Json :=
  Json.obj [("candidate", Json.str c.candidate),
            ("sdp_mid", encodeOptStr c.sdp_mid),
            ("sdp_m_line_index", encodeOptNat c.sdp_m_line_index)]

/-- serde deserialization of `struct IceCandidate`. -/
def decodeIceCandidate : Json → Option IceCandidate
  | Json.obj fields =>
    match Json.getField fields "candidate",
          Json.getField fields "sdp_mid",
          Json.getField fields "sdp_m_line_index" with
    | some (Json.str c), some jm, some ji =>
      match decodeOptStr jm, decodeOptNat ji with
      | some m, some i => some ⟨c, m, i⟩
      | _, _ => none
    | _, _, _ => none
  | _ => none

/-- serde serialization of `enum SignalMessage` (externally tagged:
struct variants become a one-field object, the newtype variant `Error`
carries its payload directly). -/
def encodeSignalMessage : SignalMessage → Json
  | SignalMessage.Offer sdp => Json.obj [("Offer", Json.obj [("sdp", Json.str sdp)])]
  | SignalMessage.Answer sdp => Json.obj [("Answer", Json.obj [("sdp", Json.str sdp)])]
  | SignalMessage.Ice c => Json.obj [("Ice", Json.obj [("candidate", encodeIceCandidate c)])]
  | SignalMessage.Error m => Json.obj [("Error", Json.str m)]

/-- serde deserialization of `enum SignalMessage`: a single-key object whose
tag selects the variant; unknown tags or malformed bodies are rejected. -/
def decodeSignalMessage : Json → Option SignalMessage
  | Json.obj [(tag, body)] =>
    if tag = "Offer" then
      match body with
      | Json.obj fields =>
        match Json.getField fields "sdp" with
        | some (Json.str s) => some (SignalMessage.Offer s)
        | _ => none
      | _ => none
    else if tag = "Answer" then
      match body with
      | Json.obj fields =>
        match Json.getField fields "sdp" with
        | some (Json.str s) => some (SignalMessage.Answer s)
        | _ => none
      | _ => none
    else if tag = "Ice" then
      match body with
      | Json.obj fields =>
        match Json.getField fields "candidate" with
        | some jc => (decodeIceCandidate jc).map SignalMessage.Ice
        | _ => none
      | _ => none
    else if tag = "Error" then
      match body with
      | Json.str m => some (SignalMessage.Error m)
      | _ => none
    else none
  | _ => none

/-! ### Transport session (`webrtc/mod.rs`)

`WebRTCTransport::new` initializes `last_ping` to `Instant::now()`
(`webrtc/mod.rs:211`) and spawns the signaling task
(`webrtc/mod.rs:218-241`).  The connection-visible state is the remote
description and the remote ICE candidates the task applies; `last_ping`
holds an instant in `Nat` milliseconds. -/

structure TransportState where
  remoteDescription : Option String
  remoteCandidates : List IceCandidate
  lastPing : Nat
deriving DecidableEq

/-- The transport state `WebRTCTransport::new` establishes when it succeeds
at instant `now`: no remote description, no remote candidates, and
`last_ping = Instant::now()`. -/
def WebRTCTransport.init (now : Nat) : TransportState := ⟨none, [], now⟩

/-- Timeout `Duration::from_secs(5)` (`webrtc/mod.rs:268`), in milliseconds. -/
def fiveSecondsMs : Nat := 5000

/-- Method `WebRTCTransport::is_connected` (`webrtc/mod.rs:267-269`):
`last_ping.elapsed() < 5s`, queried at instant `now`. -/
def is_connected (t : TransportState) (now : Nat) : Bool :=
  now - t.lastPing < fiveSecondsMs

/-- One inbound message handled by the spawned signaling task
(`webrtc/mod.rs:219-238`): decode the text to a `SignalMessage`; on
`Answer` set the remote description, on `Ice` add a remote candidate,
anything else (including undecodable text) is dropped. -/
def signalTaskStep (t : TransportState) (msg : Json) : TransportState :=
  match decodeSignalMessage msg with
  | some (SignalMessage.Answer sdp) => { t with remoteDescription := some sdp }
  | some (SignalMessage.Ice c) => { t with remoteCandidates := t.remoteCandidates ++ [c] }
  | _ => t

/-- The operations the source ever performs on a constructed transport:
`send_video_frame` / `send_audio_frame` (`webrtc/mod.rs:253-261`),
`get_stats` (`webrtc/mod.rs:263-265`), and one step of the signaling task.
None of them writes `last_ping`. -/
inductive TransportOp
  | sendVideoFrame (frame : List Nat) (timestamp : Nat)
  | sendAudioFrame (frame : List Nat) (timestamp : Nat)
  | getStatsQuery
  | inboundSignal (msg : Json)

def transportStep (t : TransportState) : TransportOp → TransportState
  | TransportOp.sendVideoFrame _ _ => t
  | TransportOp.sendAudioFrame _ _ => t
  | TransportOp.getStatsQuery => t
  | TransportOp.inboundSignal msg => signalTaskStep t msg

def transportRun (t : TransportState) (ops : List TransportOp) : TransportState :=
  ops.foldl transportStep t

/-! ### Video capture (`video/mod.rs`)

Frames and packets are opaque to the control flow of `capture_frame`; a
frame carries its `pts` and an identifying payload tag, a packet its stream
index.  The ffmpeg collaborators (`packets().next()`, `send_packet`,
`receive_frame`, `scaler.run`) are an explicit per-call environment. -/

structure VFrame where
  pts : Option Int
  payload : Nat
deriving DecidableEq

structure VPacket where
  streamId : Nat
deriving DecidableEq

structure VideoEnv where
  nextPacket : Option VPacket
  sendPacketResult : Except String Unit
  receivedFrame : Option VFrame
  scaleResult : VFrame → Except String VFrame
  elapsedWholeSecs : Nat
  elapsedSecs : ℚ

structure VideoState where
  streamIndex : Nat
  lastFrame : Option VFrame
  lastPts : Option Int
  frameRate : ℚ
  frameCount : Nat

/-- State after `VideoCapture::new` (`video/mod.rs:84-94`): no retained
frame, no pts, `frame_rate = 90.0`, `frame_count = 0`. -/
def VideoCapture.init (streamIndex : Nat) : VideoState :=
  ⟨streamIndex, none, none, 90, 0⟩

/-- Method `VideoCapture::capture_frame` (`video/mod.rs:97-127`): no packet or a
packet of a foreign stream yields `Ok(None)`; `send_packet` failure is an
error; a decode miss yields `Ok(None)`; on decode success the frame is
scaled (scale failure is an error raised before any state change), the
scaled copy becomes `last_frame`, `frame_count`, `last_pts` and the measured
`frame_rate` are updated, and the decoded frame is returned. -/
def capture_frame (env : VideoEnv) (s : VideoState) :
    Except String (Option VFrame) × VideoState :=
  match env.nextPacket with
  | none => (Except.ok none, s)
  | some pkt =>
    if pkt.streamId ≠ s.streamIndex then (Except.ok none, s)
    else
      match env.sendPacketResult with
      | Except.error e => (Except.error e, s)
      | Except.ok _ =>
        match env.receivedFrame with
        | none => (Except.ok none, s)
        | some decoded =>
          match env.scaleResult decoded with
          | Except.error e => (Except.error e, s)
          | Except.ok scaled =>
            let count1 := s.frameCount + 1
            let rate := if env.elapsedWholeSecs > 0
              then (count1 : ℚ) / env.elapsedSecs else s.frameRate
            (Except.ok (some decoded),
             { s with lastFrame := some scaled, frameCount := count1,
                      lastPts := decoded.pts, frameRate := rate })

/-- Method `VideoCapture::get_last_frame` (`video/mod.rs:133-135`). -/
def get_last_frame (s : VideoState) : Option VFrame := s.lastFrame

/-! ### Orchestrator (`lib.rs`) -/

/-- Model of `struct StreamStats` (`lib.rs:31-40`); the `Instant` timestamp becomes
`Nat` milliseconds, the `f64` fields become `ℚ`. -/
structure StreamStats where
  video_frames_sent : Nat
  audio_frames_sent : Nat
  video_bitrate : ℚ
  audio_bitrate : ℚ
  rtt : ℚ
  jitter : ℚ
  timestamp : Nat
deriving DecidableEq

/-- Value of `StreamStats::default()` (`lib.rs:49`): all counters and rates zero. -/
def defaultStreamStats : StreamStats := ⟨0, 0, 0, 0, 0, 0, 0⟩

/-- Model of `struct SlumpStream` (`lib.rs:23-29`).  The capture adapters are opaque
handles to this claim set; the transport keeps its connection state. -/
structure SlumpStream where
  video_capture : Option Nat
  audio_capture : Option Nat
  transport : Option TransportState
  running : Bool
  stats : StreamStats
deriving DecidableEq

/-- Value of `SlumpStream::default()` (`lib.rs:42-52`). -/
def defaultSlumpStream : SlumpStream := ⟨none, none, none, false, defaultStreamStats⟩

/-- Outcomes of the fallible constructors `start_stream` runs in sequence
(`lib.rs:82-114`): `VideoCapture::new`, `AudioCapture::new`,
`tokio::runtime::Runtime::new`, `WebRTCTransport::new`. -/
structure InitEnv where
  videoNew : Except String Nat
  audioNew : Except String Nat
  runtimeNew : Except String Unit
  transportNew : Except String TransportState

/-- Entry point `start_stream` (`lib.rs:58-181`) as a transition on the global stream
slot.  While already running it returns `Ok(false)`.  Otherwise each
constructor runs in turn and its success is assigned into the stream state
before the next constructor runs, so a later failure returns early with the
earlier assignments still in place; full success stores the transport, sets
`running`, and returns `Ok(true)`. -/
def start_stream (env : InitEnv) (s : SlumpStream) : Except String Bool × SlumpStream :=
  if s.running then (Except.ok false, s)
  else
    match env.videoNew with
    | Except.error e => (Except.error ("Failed to initialize video capture: " ++ e), s)
    | Except.ok v =>
      let s1 := { s with video_capture := some v }
      match env.audioNew with
      | Except.error e => (Except.error ("Failed to initialize audio capture: " ++ e), s1)
      | Except.ok a =>
        let s2 := { s1 with audio_capture := some a }
        match env.runtimeNew with
        | Except.error e => (Except.error ("Failed to create runtime: " ++ e), s2)
        | Except.ok _ =>
          match env.transportNew with
          | Except.error e => (Except.error ("Failed to create WebRTC transport: " ++ e), s2)
          | Except.ok t =>
            (Except.ok true, { s2 with transport := some t, running := true })

/-- Entry point `handle_signal` (`lib.rs:233-248`): errors when the global stream slot
was never initialized; otherwise the `if let Some(transport)` body is empty
(a placeholder comment only), so the signal text is ignored and the state is
returned unchanged. -/
def handle_signal : Option SlumpStream → String → Except String Unit × Option SlumpStream
  | none, _ => (Except.error "Stream not initialized", none)
  | some s, _ => (Except.ok (), some s)

/-- The snapshot type `struct Stats` (`lib.rs:204-211`). -/
structure Stats where
  video_kbps : ℚ
  audio_kbps : ℚ
  rtt : ℚ
  jitter : ℚ
  fps : ℚ
deriving DecidableEq

/-- Entry point `get_stats` (`lib.rs:214-230`): copies the locked counters into the
snapshot and hard-codes `fps: 0.0`. -/
def get_stats : Option SlumpStream → Except String Stats
  | none => Except.error "Stream not initialized"
  | some s =>
    Except.ok
      { video_kbps := s.stats.video_bitrate
        audio_kbps := s.stats.audio_bitrate
        rtt := s.stats.rtt
        jitter := s.stats.jitter
        fps := 0 }

/-! ### The spawned streaming loop (`lib.rs:126-178`)

Each `tokio::select!` iteration services either the video pacing tick or
the 1-second stats tick.  The video tick's environment supplies whether the
global stream still holds a video adapter and a transport, and the outcome
of `capture_frame`.  The per-iteration calls into the adapters and the
transport are recorded as a trace; the call vocabulary includes the audio
entry points that exist in the program (`AudioCapture::capture_audio`,
`AudioCapture::read_audio`, `WebRTCTransport::send_audio_frame`) so that
their absence from every trace is a statement about the loop, not about the
vocabulary. -/

inductive LoopCall
  | captureFrameCall
  | sendVideoCall (len : Nat)
  | captureAudioCall
  | readAudioCall
  | sendAudioCall (len : Nat)
  | emitStatsCall
deriving DecidableEq

def LoopCall.isAudio : LoopCall → Bool
  | LoopCall.captureAudioCall => true
  | LoopCall.readAudioCall => true
  | LoopCall.sendAudioCall _ => true
  | _ => false

inductive LoopTick
  | videoTick (present : Bool) (captured : Except String (Option (List Nat)))
  | statsTick

/-- One loop iteration over the shared stats (`lib.rs:135-176`).  On a video
tick with adapters present, `capture_frame` is invoked; when it yields
`Ok(Some(frame))` the frame goes to `send_video_frame` and the counters are
updated under the lock (`video_frames_sent += 1`,
`video_bitrate = len * 8 * fps / 1000`).  The stats tick only reads the
stats and emits the event. -/
def loopTick (fps : Nat) (st : StreamStats) : LoopTick → StreamStats × List LoopCall
  | LoopTick.videoTick present captured =>
    if present then
      match captured with
      | Except.ok (some frame) =>
        ({ st with video_frames_sent := st.video_frames_sent + 1,
                   video_bitrate := (frame.length * 8 * fps : ℚ) / 1000 },
         [LoopCall.captureFrameCall, LoopCall.sendVideoCall frame.length])
      | _ => (st, [LoopCall.captureFrameCall])
    else (st, [])
  | LoopTick.statsTick => (st, [LoopCall.emitStatsCall])

def loopRun (fps : Nat) (st : StreamStats) : List LoopTick → StreamStats × List LoopCall
  | [] => (st, [])
  | tick :: rest =>
    let out1 := loopTick fps st tick
    let out2 := loopRun fps out1.1 rest
    (out2.1, out1.2 ++ out2.2)

/-! ### Concrete inputs used by witnesses and counterexamples -/

/-- Exactly `ringCapacity + 1` samples, valued `0, 1, 2, …` in write order. -/
def overflowWrites : List Int := (List.range (ringCapacity + 1)).map Int.ofNat

/-- A start environment where video capture opens but audio capture fails. -/
def failAudioEnv : InitEnv :=
  { videoNew := Except.ok 7
    audioNew := Except.error "no audio source"
    runtimeNew := Except.ok ()
    transportNew := Except.ok (WebRTCTransport.init 0) }

/-- An initialized, running stream whose transport is present and still has
no remote description. -/
def runningStream : SlumpStream :=
  { video_capture := some 0
    audio_capture := some 0
    transport := some (WebRTCTransport.init 0)
    running := true
    stats := defaultStreamStats }

/-- A serialized `Answer` signaling message, as the host would pass it to
`handle_signal`. -/
def answerSignalText : String := "\x7b\"Answer\":\x7b\"sdp\":\"v=0\"\x7d\x7d"

/-- A video environment where every ffmpeg step succeeds: one packet of the
adapter's stream, a decoded frame with pts 5 and payload 1, and a scaler
producing the distinct payload 2. -/
def okVideoEnv : VideoEnv :=
  { nextPacket := some ⟨0⟩
    sendPacketResult := Except.ok ()
    receivedFrame := some ⟨some 5, 1⟩
    scaleResult := fun _ => Except.ok ⟨none, 2⟩
    elapsedWholeSecs := 0
    elapsedSecs := 0 }

end Slump

/-! ## Theorems -/

namespace Slump

/-! ### Ring buffer lemmas -/

theorem HeapRb.push_capacity {α : Type} (rb : HeapRb α) (x : α) :
    (rb.push x).capacity = rb.capacity := by
  unfold HeapRb.push
  split <;> rfl

theorem HeapRb.push_data_of_lt {α : Type} (rb : HeapRb α) (x : α)
    (h : rb.len < rb.capacity) : (rb.push x).data = rb.data ++ [x] := by
  unfold HeapRb.push
  rw [if_pos h]

theorem HeapRb.push_of_full {α : Type} (rb : HeapRb α) (x : α)
    (h : ¬ rb.len < rb.capacity) : rb.push x = rb := by
  unfold HeapRb.push
  rw [if_neg h]

/-- Pushing via `push_samples` on a buffer with free room `cap - len` keeps the existing
content and appends exactly the samples that fit; later samples are the
ones dropped. -/
theorem push_samples_data {α : Type} :
    ∀ (xs : List α) (rb : HeapRb α),
      (push_samples rb xs).data = rb.data ++ xs.take (rb.capacity - rb.len) := by
  intro xs
  induction xs with
  | nil => intro rb; simp [push_samples]
  | cons x xs ih =>
    intro rb
    by_cases h : rb.len < rb.capacity
    · have hdata : (rb.push x).data = rb.data ++ [x] := rb.push_data_of_lt x h
      have hcap : (rb.push x).capacity = rb.capacity := rb.push_capacity x
      have hlen : (rb.push x).len = rb.len + 1 := by
        simp [HeapRb.len, hdata]
      calc (push_samples rb (x :: xs)).data
          = (push_samples (rb.push x) xs).data := rfl
        _ = (rb.push x).data ++ xs.take ((rb.push x).capacity - (rb.push x).len) := ih _
        _ = rb.data ++ (x :: xs).take (rb.capacity - rb.len) := by
            rw [hdata, hcap, hlen, List.append_assoc]
            congr 1
            have hpos : rb.capacity - rb.len = (rb.capacity - (rb.len + 1)) + 1 := by omega
            rw [hpos, List.take_succ_cons]
            rfl
    · have hpush : rb.push x = rb := rb.push_of_full x h
      have hz : rb.capacity - rb.len = 0 := by omega
      calc (push_samples rb (x :: xs)).data
          = (push_samples (rb.push x) xs).data := rfl
        _ = (push_samples rb xs).data := by rw [hpush]
        _ = rb.data ++ xs.take (rb.capacity - rb.len) := ih rb
        _ = rb.data ++ (x :: xs).take (rb.capacity - rb.len) := by
            rw [hz]
            simp

theorem push_samples_capacity {α : Type} :
    ∀ (xs : List α) (rb : HeapRb α), (push_samples rb xs).capacity = rb.capacity := by
  intro xs
  induction xs with
  | nil => intro rb; rfl
  | cons x xs ih =>
    intro rb
    calc (push_samples rb (x :: xs)).capacity
        = (push_samples (rb.push x) xs).capacity := rfl
      _ = (rb.push x).capacity := ih _
      _ = rb.capacity := rb.push_capacity x

/-- The drain loop, characterized: with `rem` samples guaranteed available
and room in the caller's buffer, it reads `rem` samples in FIFO order into
positions `i, …, i + rem - 1` and leaves the rest of the buffer alone. -/
theorem read_audio_go_spec {α : Type} :
    ∀ (rem : Nat) (d : List α) (cap : Nat) (i : Nat) (buf : List α),
      rem ≤ d.length → i + rem ≤ buf.length →
      read_audio_go i rem ⟨cap, d⟩ buf =
        (i + rem, buf.take i ++ d.take rem ++ buf.drop (i + rem), ⟨cap, d.drop rem⟩) := by
  intro rem
  induction rem with
  | zero =>
    intro d cap i buf _ _
    simp [read_audio_go]
  | succ rem ih =>
    intro d cap i buf hd hbuf
    match d with
    | [] => simp at hd
    | x :: d' =>
      have hpop : (HeapRb.mk cap (x :: d')).pop = some (x, ⟨cap, d'⟩) := rfl
      have hi : i < buf.length := by omega
      have hstep : read_audio_go i (rem + 1) ⟨cap, x :: d'⟩ buf =
          read_audio_go (i + 1) rem ⟨cap, d'⟩ (buf.set i x) := by
        simp [read_audio_go, hpop]
      rw [hstep, ih d' cap (i + 1) (buf.set i x) (by simp at hd; omega)
        (by rw [List.length_set]; omega)]
      have hset : buf.set i x = buf.take i ++ x :: buf.drop (i + 1) :=
        List.set_eq_take_cons_drop x hi
      have htake : (buf.set i x).take (i + 1) = buf.take i ++ [x] := by
        rw [hset, List.take_append_eq_append_take]
        have h1 : (buf.take i).length = i := by
          simp [List.length_take]
          omega
        rw [h1]
        have h2 : (buf.take i).take (i + 1) = buf.take i := by
          apply List.take_of_length_le
          omega
        rw [h2]
        simp
      have hdrop : (buf.set i x).drop (i + 1 + rem) = buf.drop (i + 1 + rem) := by
        rw [hset, List.drop_append_eq_append_drop]
        have h1 : (buf.take i).length = i := by
          simp [List.length_take]
          omega
        rw [h1]
        have h2 : (buf.take i).drop (i + 1 + rem) = [] := by
          apply List.drop_eq_nil_of_le
          omega
        rw [h2]
        have h3 : i + 1 + rem - i = rem + 1 := by omega
        rw [h3]
        simp [List.drop_drop]
      rw [htake, hdrop]
      have harith : i + 1 + rem = i + (rem + 1) := by omega
      rw [harith]
      simp [List.take_succ_cons, List.drop_succ_cons, List.append_assoc]

/-- Reading via `read_audio` reads `min (buffer length) (stored samples)`, filling the
buffer's first slots with the oldest samples in FIFO order and leaving its
tail unchanged; the samples read are removed from the ring. -/
theorem read_audio_spec {α : Type} (rb : HeapRb α) (buf : List α) :
    read_audio rb buf =
      (min buf.length rb.len,
       rb.data.take (min buf.length rb.len) ++ buf.drop (min buf.length rb.len),
       ⟨rb.capacity, rb.data.drop (min buf.length rb.len)⟩) := by
  have h1 : min buf.length rb.len ≤ rb.data.length := by
    simp [HeapRb.len]
  have h2 : 0 + min buf.length rb.len ≤ buf.length := by
    simp
  have := read_audio_go_spec (min buf.length rb.len) rb.data rb.capacity 0 buf h1 h2
  unfold read_audio
  rw [show (HeapRb.mk rb.capacity rb.data) = rb from rfl] at this
  rw [this]
  simp

/-- The value of the capacity constant fixed by `AudioCapture::new`. -/
theorem ringCapacity_eq : ringCapacity = 96000 := rfl

theorem ringStep_capacity {α : Type} (rb : HeapRb α) (op : RingOp α) :
    (ringStep rb op).capacity = rb.capacity := by
  cases op with
  | write x => exact rb.push_capacity x
  | read buf => rw [ringStep, read_audio_spec]

theorem ringStep_len_le {α : Type} (rb : HeapRb α) (op : RingOp α)
    (h : rb.len ≤ rb.capacity) : (ringStep rb op).len ≤ rb.capacity := by
  cases op with
  | write x =>
    show (rb.push x).len ≤ rb.capacity
    unfold HeapRb.push
    split
    next hlt =>
      simp only [HeapRb.len, List.length_append, List.length_singleton] at hlt ⊢
      omega
    next => exact h
  | read buf =>
    rw [ringStep, read_audio_spec]
    simp only [HeapRb.len, List.length_drop] at h ⊢
    omega

theorem ringRun_len_le {α : Type} :
    ∀ (ops : List (RingOp α)) (rb : HeapRb α), rb.len ≤ rb.capacity →
      (ringRun rb ops).len ≤ (ringRun rb ops).capacity := by
  intro ops
  induction ops with
  | nil => intro rb h; exact h
  | cons op rest ih =>
    intro rb h
    have h1 : (ringStep rb op).len ≤ (ringStep rb op).capacity := by
      rw [ringStep_capacity]
      exact ringStep_len_le rb op h
    exact ih (ringStep rb op) h1

/-- Claim C6 (amended).  Along every sequence of writes and reads the number
of samples readable from the audio ring buffer never exceeds its fixed
capacity; that capacity is `SAMPLE_RATE * 2 = 96000` f32 samples — one
second of 48 kHz stereo interleaved audio, not the two seconds (192,000
samples) the claim states. -/
theorem ring_len_bounded_and_capacity (ops : List (RingOp Int)) :
    (ringRun (HeapRb.new Int ringCapacity) ops).len ≤ ringCapacity ∧
    ringCapacity = 96000 := by
  constructor
  · have h0 : (HeapRb.new Int ringCapacity).len ≤ (HeapRb.new Int ringCapacity).capacity := by
      simp [HeapRb.new, HeapRb.len]
    have h1 := ringRun_len_le ops (HeapRb.new Int ringCapacity) h0
    have h2 : (ringRun (HeapRb.new Int ringCapacity) ops).capacity = ringCapacity := by
      have : ∀ (l : List (RingOp Int)) (rb : HeapRb Int),
          (ringRun rb l).capacity = rb.capacity := by
        intro l
        induction l with
        | nil => intro rb; rfl
        | cons op rest ih =>
          intro rb
          calc (ringRun rb (op :: rest)).capacity
              = (ringRun (ringStep rb op) rest).capacity := rfl
            _ = (ringStep rb op).capacity := ih _
            _ = rb.capacity := ringStep_capacity rb op
      exact this ops _
    rw [h2] at h1
    exact h1
  · rfl

/-- Claim C6 fails as stated: the ring buffer's capacity is 96,000 samples
(`(SAMPLE_RATE * 2) as usize`, the source comment even says "1 second of
audio"), not the 192,000 samples of two seconds of 48 kHz stereo audio. -/
theorem ring_capacity_not_192000_cex :
    (HeapRb.new Int ringCapacity).capacity = 96000 ∧
    ¬ ((HeapRb.new Int ringCapacity).capacity = 192000) := by
  constructor
  · rfl
  · intro h
    simp [HeapRb.new, ringCapacity_eq] at h

/-- Claim C5.  A `read_audio` into a caller-supplied buffer of length `n`
against a ring holding `available` samples returns exactly
`min n available`, fills the first `min n available` slots of the buffer
with the oldest buffered samples in FIFO order, leaves the rest of the
buffer unchanged, and (being a pure bounded loop) never blocks. -/
theorem read_audio_returns_min_available (rb : HeapRb Int) (buf : List Int) :
    (read_audio rb buf).1 = min buf.length rb.len ∧
    (read_audio rb buf).2.1 =
      rb.data.take (min buf.length rb.len) ++ buf.drop (min buf.length rb.len) ∧
    (read_audio rb buf).2.2.data = rb.data.drop (min buf.length rb.len) := by
  rw [read_audio_spec]
  exact ⟨rfl, rfl, rfl⟩

/-- After writing `ringCapacity + k` samples into the empty audio ring one
at a time, exactly the first `ringCapacity` of them are retained, and a
full-capacity read drains them all. -/
theorem read_full_after_overflow (k : Nat) (writes : List Int)
    (h : writes.length = ringCapacity + k) :
    read_audio (push_samples (HeapRb.new Int ringCapacity) writes)
        (List.replicate ringCapacity 0) =
      (ringCapacity, writes.take ringCapacity, ⟨ringCapacity, []⟩) := by
  have hdata : (push_samples (HeapRb.new Int ringCapacity) writes).data =
      writes.take ringCapacity := by
    rw [push_samples_data]
    simp [HeapRb.new, HeapRb.len]
  have hcap : (push_samples (HeapRb.new Int ringCapacity) writes).capacity =
      ringCapacity := by
    rw [push_samples_capacity]
    rfl
  have hlen : (push_samples (HeapRb.new Int ringCapacity) writes).len = ringCapacity := by
    simp only [HeapRb.len, hdata, List.length_take]
    omega
  rw [read_audio_spec, hdata, hcap, hlen]
  have hmin : min (List.replicate ringCapacity (0 : Int)).length ringCapacity =
      ringCapacity := by
    simp
  rw [hmin]
  have htk : (writes.take ringCapacity).take ringCapacity = writes.take ringCapacity := by
    simp
  have hdropbuf : (List.replicate ringCapacity (0 : Int)).drop ringCapacity = [] := by
    simp
  have hdropd : (writes.take ringCapacity).drop ringCapacity = [] := by
    apply List.drop_eq_nil_of_le
    simp
  rw [htk, hdropbuf, hdropd]
  simp

/-- Claim C2 (amended).  Writing `capacity + k` samples one at a time into the
empty ring buffer and then reading `capacity` samples yields exactly the
**first** `capacity` samples written, in FIFO order: the overflow policy of
`capture_audio`'s `let _ = rb.push(sample)` drops each write that finds the
buffer full, so the **newest** `k` samples are the ones lost, not the
oldest. -/
theorem overflow_keeps_oldest (k : Nat) (writes : List Int)
    (h : writes.length = ringCapacity + k) :
    (read_audio (push_samples (HeapRb.new Int ringCapacity) writes)
        (List.replicate ringCapacity 0)).1 = ringCapacity ∧
    (read_audio (push_samples (HeapRb.new Int ringCapacity) writes)
        (List.replicate ringCapacity 0)).2.1 = writes.take ringCapacity := by
  rw [read_full_after_overflow k writes h]
  exact ⟨rfl, rfl⟩

/-- Witness for `overflow_keeps_oldest` at `k = 1` and the concrete write
sequence `0, 1, …, 96000`. -/
theorem overflow_keeps_oldest_witness :
    overflowWrites.length = ringCapacity + 1 ∧
    ((read_audio (push_samples (HeapRb.new Int ringCapacity) overflowWrites)
        (List.replicate ringCapacity 0)).1 = ringCapacity ∧
     (read_audio (push_samples (HeapRb.new Int ringCapacity) overflowWrites)
        (List.replicate ringCapacity 0)).2.1 = overflowWrites.take ringCapacity) :=
  ⟨by simp [overflowWrites],
   overflow_keeps_oldest 1 overflowWrites (by simp [overflowWrites])⟩

/-- Claim C2 fails as stated: after the concrete writes `0, 1, …, 96000`
(capacity + 1 samples), reading `capacity` samples does **not** yield the
last `capacity` samples written (`1, …, 96000`, i.e. the writes with the
oldest one dropped) — the buffer kept `0, …, 95999` and dropped the newest
write instead. -/
theorem overflow_not_last_written_cex :
    ¬ ((read_audio (push_samples (HeapRb.new Int ringCapacity) overflowWrites)
        (List.replicate ringCapacity 0)).2.1 = overflowWrites.drop 1) := by
  intro hEq
  have hlen : overflowWrites.length = ringCapacity + 1 := by simp [overflowWrites]
  rw [read_full_after_overflow 1 overflowWrites hlen] at hEq
  dsimp only at hEq
  have hEq2 : overflowWrites.take ringCapacity = overflowWrites.drop 1 := hEq
  have hlt0 : (0 : Nat) < ringCapacity := by rw [ringCapacity_eq]; omega
  have hr0 : (List.range (ringCapacity + 1))[(0 : Nat)]? = some 0 :=
    List.getElem?_range (by omega)
  have hr1 : (List.range (ringCapacity + 1))[(1 : Nat)]? = some 1 :=
    List.getElem?_range (by omega)
  have h0 : (overflowWrites.take ringCapacity)[(0 : Nat)]? = some (0 : Int) := by
    rw [List.getElem?_take_of_lt hlt0]
    simp [overflowWrites, hr0]
  have h1 : (overflowWrites.drop 1)[(0 : Nat)]? = some (1 : Int) := by
    rw [List.getElem?_drop]
    simp [overflowWrites, hr1]
  rw [hEq2, h1] at h0
  simp at h0

/-! ### Orchestrator start-up (C1) -/

/-- Claim C1 (amended).  When `start_stream` is called while not running and
any initialization step fails, the error is surfaced to the caller and the
orchestrator remains not running and never stores a transport handle — but
already-opened capture adapters are NOT released: an adapter opened before
the failing step stays stored in the stream state (the video adapter
survives an audio-init failure; both adapters survive a runtime/transport
failure).  Only a video-init failure leaves the state fully unchanged. -/
theorem start_stream_failure_keeps_partial_state (env : InitEnv) (s : SlumpStream)
    (hidle : s.running = false) (e : String)
    (hfail : (start_stream env s).1 = Except.error e) :
    (start_stream env s).2.running = false ∧
    (start_stream env s).2.transport = s.transport ∧
    (start_stream env s).2.video_capture =
      (match env.videoNew with
       | Except.ok v => some v
       | Except.error _ => s.video_capture) ∧
    (start_stream env s).2.audio_capture =
      (match env.videoNew, env.audioNew with
       | Except.ok _, Except.ok a => some a
       | _, _ => s.audio_capture) := by
  cases hv : env.videoNew with
  | error ev => simp [start_stream, hidle, hv]
  | ok v =>
    cases ha : env.audioNew with
    | error ea => simp [start_stream, hidle, hv, ha]
    | ok a =>
      cases hr : env.runtimeNew with
      | error er => simp [start_stream, hidle, hv, ha, hr]
      | ok u =>
        cases ht : env.transportNew with
        | error et => simp [start_stream, hidle, hv, ha, hr, ht]
        | ok t => simp [start_stream, hidle, hv, ha, hr, ht] at hfail

/-- Witness for `start_stream_failure_keeps_partial_state`: from the default
(idle) stream, with video opening as handle 7 and audio capture failing. -/
theorem start_stream_failure_keeps_partial_state_witness :
    defaultSlumpStream.running = false ∧
    (start_stream failAudioEnv defaultSlumpStream).1 =
      Except.error "Failed to initialize audio capture: no audio source" ∧
    ((start_stream failAudioEnv defaultSlumpStream).2.running = false ∧
     (start_stream failAudioEnv defaultSlumpStream).2.transport =
       defaultSlumpStream.transport ∧
     (start_stream failAudioEnv defaultSlumpStream).2.video_capture =
       (match failAudioEnv.videoNew with
        | Except.ok v => some v
        | Except.error _ => defaultSlumpStream.video_capture) ∧
     (start_stream failAudioEnv defaultSlumpStream).2.audio_capture =
       (match failAudioEnv.videoNew, failAudioEnv.audioNew with
        | Except.ok _, Except.ok a => some a
        | _, _ => defaultSlumpStream.audio_capture)) :=
  ⟨rfl, rfl,
   start_stream_failure_keeps_partial_state failAudioEnv defaultSlumpStream rfl
     "Failed to initialize audio capture: no audio source" rfl⟩

/-- Claim C1 fails as stated: starting from the idle default stream with
video capture succeeding (handle 7) and audio capture failing, the error is
surfaced but the already-opened video adapter is NOT released — it remains
stored in the stream state instead of being `none`. -/
theorem start_stream_leaks_video_cex :
    (start_stream failAudioEnv defaultSlumpStream).1 =
      Except.error "Failed to initialize audio capture: no audio source" ∧
    (start_stream failAudioEnv defaultSlumpStream).2.video_capture = some 7 ∧
    ¬ ((start_stream failAudioEnv defaultSlumpStream).2.video_capture = none) :=
  ⟨rfl, rfl, fun h => Option.noConfusion (show (some 7 : Option Nat) = none from h)⟩

/-! ### Signaling dispatch (C3) -/

/-- Claim C3 is contradicted by the code (its own comment says the body
"would be implemented"): `handle_signal` on an initialized stream whose
transport is present returns `Ok(())` with the stream — including the
transport's connection state — unchanged.  The inbound `Answer` text is
neither decoded to a `SignalMessage` nor applied: the remote description
stays `none`. -/
theorem handle_signal_ignores_text :
    handle_signal (some runningStream) answerSignalText =
      (Except.ok (), some runningStream) ∧
    runningStream.transport =
      some { remoteDescription := none, remoteCandidates := [], lastPing := 0 } :=
  ⟨rfl, rfl⟩

/-! ### Transport liveness (C4) -/

theorem signalTaskStep_lastPing (t : TransportState) (msg : Json) :
    (signalTaskStep t msg).lastPing = t.lastPing := by
  unfold signalTaskStep
  split <;> rfl

theorem transportStep_lastPing (t : TransportState) (op : TransportOp) :
    (transportStep t op).lastPing = t.lastPing := by
  cases op with
  | sendVideoFrame frame ts => rfl
  | sendAudioFrame frame ts => rfl
  | getStatsQuery => rfl
  | inboundSignal msg => exact signalTaskStep_lastPing t msg

theorem transportRun_lastPing :
    ∀ (ops : List TransportOp) (t : TransportState),
      (transportRun t ops).lastPing = t.lastPing := by
  intro ops
  induction ops with
  | nil => intro t; rfl
  | cons op rest ih =>
    intro t
    calc (transportRun t (op :: rest)).lastPing
        = (transportRun (transportStep t op) rest).lastPing := rfl
      _ = (transportStep t op).lastPing := ih _
      _ = t.lastPing := transportStep_lastPing t op

/-- Claim C4 (amended).  After a transport session is constructed at
instant `t0`, no operation the program ever performs on it (media sends,
stats queries, signaling-task steps) writes `last_ping`, so at every later
point `is_connected()` returns true if and only if fewer than 5 seconds
have elapsed since *construction* — observed liveness signals play no role,
because nothing records them. -/
theorem is_connected_iff_recent_construction (t0 now : Nat) (ops : List TransportOp) :
    (transportRun (WebRTCTransport.init t0) ops).lastPing = t0 ∧
    is_connected (transportRun (WebRTCTransport.init t0) ops) now =
      decide (now - t0 < fiveSecondsMs) := by
  have h := transportRun_lastPing ops (WebRTCTransport.init t0)
  constructor
  · exact h
  · unfold is_connected
    rw [h]
    rfl

/-- Claim C4 fails as stated: 3 model seconds after construction, after a
trace (a media send and a stats query) in which no operation recorded any
liveness signal — the final state is exactly the construction state, with
`last_ping` still holding the construction instant — `is_connected` returns
`true` even though no liveness signal was ever observed. -/
theorem is_connected_true_without_liveness_cex :
    transportRun (WebRTCTransport.init 0)
        [TransportOp.sendVideoFrame [1, 2] 0, TransportOp.getStatsQuery] =
      WebRTCTransport.init 0 ∧
    is_connected (transportRun (WebRTCTransport.init 0)
        [TransportOp.sendVideoFrame [1, 2] 0, TransportOp.getStatsQuery]) 3000 = true :=
  ⟨rfl, rfl⟩

/-! ### Video capture (C7) -/

/-- Claim C7.  Whenever `capture_frame` succeeds with a frame, the returned
frame is exactly the decoded (pre-scale) frame delivered by the decoder,
while the frame stored as the retained last frame — the one `get_last_frame`
subsequently returns — is the scaler's output for it, and only that. -/
theorem capture_frame_returns_decoded_retains_scaled
    (env : VideoEnv) (s s2 : VideoState) (f : VFrame)
    (h : capture_frame env s = (Except.ok (some f), s2)) :
    env.receivedFrame = some f ∧
    s2.lastFrame = (env.scaleResult f).toOption ∧
    get_last_frame s2 = (env.scaleResult f).toOption ∧
    (env.scaleResult f).isOk = true := by
  cases hnp : env.nextPacket with
  | none => simp [capture_frame, hnp] at h
  | some pkt =>
    by_cases hid : pkt.streamId = s.streamIndex
    · cases hsp : env.sendPacketResult with
      | error e => simp [capture_frame, hnp, hid, hsp] at h
      | ok u =>
        cases hrf : env.receivedFrame with
        | none => simp [capture_frame, hnp, hid, hsp, hrf] at h
        | some decoded =>
          cases hsc : env.scaleResult decoded with
          | error e => simp [capture_frame, hnp, hid, hsp, hrf, hsc] at h
          | ok scaled =>
            simp only [capture_frame, hnp, hid, hsp, hrf, hsc, ne_eq,
              not_true_eq_false, if_false, ite_false, Prod.mk.injEq,
              Except.ok.injEq, Option.some.injEq] at h
            obtain ⟨hf, hs⟩ := h
            subst hf
            subst hs
            simp [hsc, get_last_frame, Except.toOption, Except.isOk, Except.toBool]
    · simp [capture_frame, hnp, hid] at h

/-- Witness for `capture_frame_returns_decoded_retains_scaled`: every
ffmpeg step succeeds, the decoded frame (pts 5, payload 1) is returned and
the scaled frame (payload 2) is retained. -/
theorem capture_frame_returns_decoded_retains_scaled_witness :
    capture_frame okVideoEnv (VideoCapture.init 0) =
      (Except.ok (some ⟨some 5, 1⟩), ⟨0, some ⟨none, 2⟩, some 5, 90, 1⟩) ∧
    (okVideoEnv.receivedFrame = some ⟨some 5, 1⟩ ∧
     (⟨0, some ⟨none, 2⟩, some 5, 90, 1⟩ : VideoState).lastFrame =
       (okVideoEnv.scaleResult ⟨some 5, 1⟩).toOption ∧
     get_last_frame ⟨0, some ⟨none, 2⟩, some 5, 90, 1⟩ =
       (okVideoEnv.scaleResult ⟨some 5, 1⟩).toOption ∧
     (okVideoEnv.scaleResult ⟨some 5, 1⟩).isOk = true) :=
  ⟨rfl,
   capture_frame_returns_decoded_retains_scaled okVideoEnv (VideoCapture.init 0)
     ⟨0, some ⟨none, 2⟩, some 5, 90, 1⟩ ⟨some 5, 1⟩ rfl⟩

/-! ### The streaming loop never drives audio (C8) -/

theorem loopTick_audio_inert (fps : Nat) (st : StreamStats) (tick : LoopTick) :
    (loopTick fps st tick).1.audio_frames_sent = st.audio_frames_sent ∧
    (loopTick fps st tick).2.all (fun c => ! c.isAudio) = true := by
  cases tick with
  | videoTick present captured =>
    by_cases hp : present = true
    · cases captured with
      | error e => simp [loopTick, hp, LoopCall.isAudio]
      | ok o =>
        cases o with
        | none => simp [loopTick, hp, LoopCall.isAudio]
        | some frame => simp [loopTick, hp, LoopCall.isAudio]
    · simp [loopTick, hp, LoopCall.isAudio]
  | statsTick => exact ⟨rfl, rfl⟩

/-- Claim C8.  Along every execution of the streaming loop spawned by
`start_stream`, starting from the default stats, the audio pull/read path
is never invoked: the call trace contains no `capture_audio`, `read_audio`
or `send_audio_frame` call, and the `audio_frames_sent` counter stays 0. -/
theorem loop_never_drives_audio (fps : Nat) (ticks : List LoopTick) :
    (loopRun fps defaultStreamStats ticks).1.audio_frames_sent = 0 ∧
    (loopRun fps defaultStreamStats ticks).2.all (fun c => ! c.isAudio) = true := by
  have main : ∀ (l : List LoopTick) (st : StreamStats),
      (loopRun fps st l).1.audio_frames_sent = st.audio_frames_sent ∧
      (loopRun fps st l).2.all (fun c => ! c.isAudio) = true := by
    intro l
    induction l with
    | nil => intro st; exact ⟨rfl, rfl⟩
    | cons tick rest ih =>
      intro st
      have h1 := loopTick_audio_inert fps st tick
      have h2 := ih (loopTick fps st tick).1
      constructor
      · calc (loopRun fps st (tick :: rest)).1.audio_frames_sent
            = (loopRun fps (loopTick fps st tick).1 rest).1.audio_frames_sent := rfl
          _ = (loopTick fps st tick).1.audio_frames_sent := h2.1
          _ = st.audio_frames_sent := h1.1
      · show ((loopTick fps st tick).2 ++
            (loopRun fps (loopTick fps st tick).1 rest).2).all (fun c => ! c.isAudio) = true
        rw [List.all_append, h1.2, h2.2]
        rfl
  exact main ticks defaultStreamStats

/-! ### Signaling round-trip (C9) -/

theorem decodeOptStr_encodeOptStr (o : Option String) :
    decodeOptStr (encodeOptStr o) = some o := by
  cases o <;> rfl

theorem decodeOptNat_encodeOptNat (o : Option Nat) :
    decodeOptNat (encodeOptNat o) = some o := by
  cases o <;> rfl

theorem decodeIceCandidate_encodeIceCandidate (c : IceCandidate) :
    decodeIceCandidate (encodeIceCandidate c) = some c := by
  obtain ⟨cand, m, i⟩ := c
  simp [encodeIceCandidate, decodeIceCandidate, Json.getField,
    decodeOptStr_encodeOptStr, decodeOptNat_encodeOptNat]

/-- Claim C9.  Encoding any `SignalMessage` — `Offer`, `Answer`, `Ice` or
`Error` — to its (externally tagged) JSON form and decoding it back yields
the original message. -/
theorem signal_message_roundtrip (m : SignalMessage) :
    decodeSignalMessage (encodeSignalMessage m) = some m := by
  cases m with
  | Offer sdp => simp [encodeSignalMessage, decodeSignalMessage, Json.getField]
  | Answer sdp => simp [encodeSignalMessage, decodeSignalMessage, Json.getField]
  | Ice c =>
    simp [encodeSignalMessage, decodeSignalMessage, Json.getField,
      decodeIceCandidate_encodeIceCandidate]
  | Error msg => simp [encodeSignalMessage, decodeSignalMessage]

/-! ### Stats snapshot (C10) -/

/-- Claim C10.  `get_stats` on an initialized stream copies the current
counters into the snapshot but hard-codes the `fps` field to `0.0`, whatever
the counters hold. -/
theorem get_stats_fps_always_zero (s : SlumpStream) :
    get_stats (some s) =
      Except.ok
        { video_kbps := s.stats.video_bitrate
          audio_kbps := s.stats.audio_bitrate
          rtt := s.stats.rtt
          jitter := s.stats.jitter
          fps := 0 } := rfl

end Slump
